import Mathlib

/-!
Verification of the drk-facility dashboard sources (`src/supabaseClient.ts`,
which bundles the Supabase client initializer and the `ReportsView` React
component).  The TypeScript/JavaScript code is shallowly embedded: strings are
Lean `String`s handled at the character-list level, JS numbers that can be
`NaN` are `Option Int` / `Option ℚ` (with `none` for `NaN`), JS `Date` values
are `Option Int` (milliseconds since the epoch in a DST-free local timezone,
`none` for an Invalid Date), and `Record<string, T>` objects are association
lists in insertion order (the order `Object.entries` yields for the
non-index-like keys used here).
-/

namespace DRK

/-! ## JavaScript string primitives (character-level, structurally recursive) -/

/-- JS whitespace for `String.prototype.trim` / `parseInt` (ASCII part). -/
def isJsSpace (c : Char) : Bool :=
  c = ' ' || c = '\t' || c = '\n' || c = '\r' || c = '\x0b' || c = '\x0c'

/-- Model of `String.prototype.trim()`. -/
def jsTrim (s : String) : String :=
  String.mk (((s.data.dropWhile isJsSpace).reverse.dropWhile isJsSpace).reverse)

/-- Truthiness of a JS string-or-null/undefined value: `none` (null/undefined)
and the empty string are falsy. -/
def truthyS : Option String → Bool
  | none => false
  | some s => !s.data.isEmpty

/-- Model of `a || b || ''` on string-or-null values. -/
def jsOr (a b : Option String) : String :=
  if truthyS a then a.getD "" else if truthyS b then b.getD "" else ""

/-- Model of `s.startsWith(p)`. -/
def jsStartsWith (s p : String) : Bool :=
  p.data.isPrefixOf s.data

/-- Value of a non-empty digit prefix; `none` when there is no leading digit. -/
def digitsVal (cs : List Char) : Option Nat :=
  match cs.takeWhile Char.isDigit with
  | [] => none
  | ds => some (ds.foldl (fun a c => a * 10 + (c.toNat - 48)) 0)

/-- Model of `parseInt(s, 10)`: skip leading whitespace, optional sign, then
the longest digit prefix; `none` models `NaN`. -/
def parseIntJS (s : String) : Option Int :=
  match s.data.dropWhile isJsSpace with
  | '-' :: rest => (digitsVal rest).map (fun n => -(n : Int))
  | '+' :: rest => (digitsVal rest).map (fun n => (n : Int))
  | cs => (digitsVal cs).map (fun n => (n : Int))

/-- Model of `String.prototype.split('.')`: split at every `'.'`, keeping
empty segments (so `"" ↦ [""]`, `"a..b" ↦ ["a", "", "b"]`). -/
def splitDotsAux : List Char → List (List Char)
  | [] => [[]]
  | c :: rest =>
    match splitDotsAux rest with
    | [] => [[]]
    | g :: gs => if c = '.' then [] :: g :: gs else (c :: g) :: gs

/-- `s.split('.')` as Lean strings. -/
def splitDots (s : String) : List String :=
  (splitDotsAux s.data).map String.mk

/-! ## JavaScript dates

A JS `Date` is its time value: `some t` with `t` in milliseconds since the
epoch, or `none` for an Invalid Date (time value `NaN`).  The embedding fixes
a DST-free local timezone at UTC offset 0, so `new Date(y, m, d)` is midnight
of the (normalized) civil date. -/

/-- A JS `Date` value: `some` milliseconds since the epoch, `none` = Invalid. -/
abbrev JSDate := Option Int

def msPerDay : Int := 86400000

/-- Days since 1970-01-01 of the civil date `(y, m, 1)` plus `d - 1`, for any
month `m ∈ [1, 12]` and any integer `d` (day-of-month over/underflow shifts
the day number linearly, exactly as JS `MakeDay` does). -/
def civilDays (y m d : Int) : Int :=
  let y' := if m ≤ 2 then y - 1 else y
  let era := Int.fdiv y' 400
  let yoe := y' - era * 400
  let mp := Int.fmod (m + 9) 12
  let doy := Int.fdiv (153 * mp + 2) 5 + d - 1
  let doe := yoe * 365 + Int.fdiv yoe 4 - Int.fdiv yoe 100 + doy
  era * 146097 + doe - 719468

/-- Time value of `new Date(y, m, d)` (with `m` a 0-based month index, both
possibly out of range) before range clipping: JS maps years `0..99` to
`1900..1999` and normalizes the month index and day. -/
def jsTime (y m d : Int) : Int :=
  let yy := if 0 ≤ y ∧ y ≤ 99 then y + 1900 else y
  let ym := yy + Int.fdiv m 12
  let mn := Int.fmod m 12
  civilDays ym (mn + 1) d * msPerDay

/-- `new Date(y, m, d)` on `parseInt` results: any `NaN` argument or a time
value beyond ±8.64e15 ms gives an Invalid Date. -/
def newDate (y m d : Option Int) : JSDate :=
  match y, m, d with
  | some y, some m, some d =>
    let t := jsTime y m d
    if t.natAbs ≤ 8640000000000000 then some t else none
  | _, _, _ => none

/-- NaN-propagating subtraction of two date time values
(`c.getTime() - e.getTime()`). -/
def jsSub : JSDate → JSDate → Option Int
  | some c, some e => some (c - e)
  | _, _ => none

/-- NaN-propagating addition on JS numbers modelled as `Option Int`. -/
def jsAdd : Option Int → Option Int → Option Int
  | some a, some b => some (a + b)
  | _, _ => none

/-- NaN-propagating addition on JS numbers modelled as `Option ℚ`. -/
def jsAddQ : Option ℚ → Option ℚ → Option ℚ
  | some a, some b => some (a + b)
  | _, _ => none

/-! ## Source: `parseGermanDate` -/

/-- `parseGermanDate` from `src/supabaseClient.ts`: `null` (here `none`) for a
missing, empty or `"N/A"` string or one that does not split into exactly three
parts at `'.'`; otherwise `new Date(year, month - 1, day)`, which may be an
Invalid Date (`some none`) when a part has no leading digit. -/
def parseGermanDate : Option String → Option JSDate
  | none => none
  | some s =>
    if s.data.isEmpty then none
    else if s = "N/A" then none
    else
      match splitDots s with
      | [d, m, y] => some (newDate (parseIntJS y) ((parseIntJS m).map (· - 1)) (parseIntJS d))
      | _ => none

/-! ## Data model

The `Ticket`, `User`, `Status` and `Role` types come from `../types`, which is
not part of the reviewed sources; they are modelled from the spec. -/

/-- Modelled from the spec: `Role` is an enumeration of user roles that
includes `Technician` (`../types` is not among the reviewed sources). -/
inductive Role where
  | Technician
  | Verwaltung
  deriving DecidableEq, BEq, Repr

/-- Modelled from the spec: a `User` has a name and a role. -/
structure User where
  name : String
  role : Role
  deriving DecidableEq, Repr

/-- Modelled from the spec: `Status` is a string enum (open / overdue /
completed, etc.); only the distinguished members used by the view are named.
`Abgeschlossen` is the completed status and `Ueberfaellig` the overdue one. -/
def Status.Abgeschlossen : String := "Abgeschlossen"

/-- The overdue status string (see `Status.Abgeschlossen`). -/
def Status.Ueberfaellig : String := "Ueberfaellig"

/-- Modelled from the spec: a `Ticket` has a localized entry date (possibly
absent), an optional completion date, a status, an area and a technician
name (possibly `"N/A"`). -/
structure Ticket where
  entryDate : Option String
  completionDate : Option String
  status : String
  area : String
  technician : String
  deriving DecidableEq, Repr

/-- The `timeRange` filter field: the literal union `'7d' | '30d' | '90d' | 'all'`. -/
inductive TimeRange where
  | d7
  | d30
  | d90
  | all
  deriving DecidableEq, BEq, Repr

/-- The `reportFilters` state object of `ReportsView`. -/
structure ReportFilters where
  timeRange : TimeRange
  area : String
  status : String
  technician : String
  deriving DecidableEq, Repr

/-- The `useState` initializer of `reportFilters`:
`{ timeRange: '30d', area: 'Alle', status: 'Alle', technician: 'Alle' }`. -/
def initialReportFilters : ReportFilters :=
  { timeRange := TimeRange.d30, area := "Alle", status := "Alle", technician := "Alle" }

/-- `resetFilters`: replaces any previous filter state with the fixed record
`{ timeRange: '30d', area: 'Alle', status: 'Alle', technician: 'Alle' }`. -/
def resetFilters (_prev : ReportFilters) : ReportFilters :=
  { timeRange := TimeRange.d30, area := "Alle", status := "Alle", technician := "Alle" }

/-! ## Source: the Supabase client initializer

The initializer's environment: the two `localStorage.getItem` results (`none`
= null), the two `import.meta.env` values (`none` = undefined), whether each
`getItem` call throws (browsers may throw a `SecurityError`), and whether
`createClient` succeeds. -/

structure InitEnv where
  localUrl : Option String
  localKey : Option String
  envUrl : Option String
  envKey : Option String
  getUrlThrows : Bool
  getKeyThrows : Bool
  createOk : Bool
  deriving DecidableEq, Repr

/-- The resolved `supabaseUrl`:
`(localStorage.getItem('SUPABASE_URL_OVERRIDE') || import.meta.env.VITE_SUPABASE_URL || '').trim()`. -/
def resolvedUrl (env : InitEnv) : String :=
  jsTrim (jsOr env.localUrl env.envUrl)

/-- The resolved `supabaseAnonKey` (local override, then build-time variable,
then `''`, trimmed). -/
def resolvedKey (env : InitEnv) : String :=
  jsTrim (jsOr env.localKey env.envKey)

/-- The body of the initializer's `try` block: resolve the two settings (each
lookup may throw), then either construct the client (which may throw), emit
the incomplete-configuration warning, or do nothing.  Returns the assigned
`supabaseClient` value and whether `console.warn` ran. -/
def tryBody (env : InitEnv) : Except String (Option (String × String) × Bool) :=
  if env.getUrlThrows = true then Except.error "getItem"
  else
    let supabaseUrl := jsTrim (jsOr env.localUrl env.envUrl)
    if env.getKeyThrows = true then Except.error "getItem"
    else
      let supabaseAnonKey := jsTrim (jsOr env.localKey env.envKey)
      if supabaseUrl ≠ "" ∧ supabaseAnonKey ≠ "" ∧ jsStartsWith supabaseUrl "http" = true then
        if env.createOk = true then Except.ok (some (supabaseUrl, supabaseAnonKey), false)
        else Except.error "createClient"
      else if supabaseUrl ≠ "" ∨ supabaseAnonKey ≠ "" then Except.ok (none, true)
      else Except.ok (none, false)

/-- Outcome of running the whole initializer module: the exported handle, and
whether `console.warn` / `console.error` ran. -/
structure InitResult where
  client : Option (String × String)
  warned : Bool
  errored : Bool
  deriving DecidableEq, Repr

/-- The initializer with its surrounding `try`/`catch`: a caught exception is
logged via `console.error` and leaves `supabaseClient` at its initial `null`. -/
def runInit (env : InitEnv) : InitResult :=
  match tryBody env with
  | Except.ok (c, w) => { client := c, warned := w, errored := false }
  | Except.error _ => { client := none, warned := false, errored := true }

/-- `export const supabase = supabaseClient`. -/
def supabase (env : InitEnv) : Option (String × String) :=
  (runInit env).client

/-! ## Source: `ReportsView` filtering -/

/-- `users.filter(u => u.role === Role.Technician)`. -/
def technicians (users : List User) : List User :=
  users.filter (fun u => u.role == Role.Technician)

/-- The names of the technician users, in user-list order. -/
def techNames (users : List User) : List String :=
  (technicians users).map User.name

/-- The `days` table of `filteredTickets` (`'all'` never reaches the lookup). -/
def rangeDays : TimeRange → Int
  | TimeRange.d7 => 7
  | TimeRange.d30 => 30
  | TimeRange.d90 => 90
  | TimeRange.all => 0

/-- The frozen reference date `new Date(2026, 1, 7)` (already at midnight, so
`setHours(0,0,0,0)` changes nothing). -/
def todayTime : Int := jsTime 2026 1 7

/-- The cut-off date: a copy of `today` with
`setDate(today.getDate() - days[timeRange])`, i.e. day-of-month `7 - n` of
February 2026, normalized. -/
def cutoffTime (n : Int) : Int := jsTime 2026 1 (7 - n)

/-- The date-range part of the `filteredTickets` predicate: under a bounded
range a ticket whose entry date parses to `null` is dropped and one whose
valid entry time is before the cut-off is dropped; an Invalid Date survives
because `NaN < t` is false in JS. -/
def dateCheck (f : ReportFilters) (t : Ticket) : Bool :=
  match f.timeRange with
  | TimeRange.all => true
  | tr =>
    match parseGermanDate t.entryDate with
    | none => false
    | some entryDate =>
      match entryDate with
      | none => true
      | some et => if et < cutoffTime (rangeDays tr) then false else true

/-- The three categorical checks of the `filteredTickets` predicate: exact
match against the filter value, skipped when the filter is `'Alle'`. -/
def catMatch (f : ReportFilters) (t : Ticket) : Bool :=
  (f.area == "Alle" || t.area == f.area) &&
  (f.status == "Alle" || t.status == f.status) &&
  (f.technician == "Alle" || t.technician == f.technician)

/-- The whole `filteredTickets` predicate (the source's early `return false`s
become one conjunction). -/
def keepTicket (f : ReportFilters) (t : Ticket) : Bool :=
  dateCheck f t && catMatch f t

/-- `filteredTickets`: `tickets.filter(...)`. -/
def filteredTickets (tickets : List Ticket) (f : ReportFilters) : List Ticket :=
  tickets.filter (keepTicket f)

/-! ## Source: `stats` -/

/-- `avgProcessingTime.toFixed(1)` on a non-NaN value: round to one decimal,
ties away from the value's floor (the ES `toFixed` picks the larger candidate
on a tie). -/
def round1 (q : ℚ) : ℚ :=
  (⌊q * 10 + 1 / 2⌋ : ℤ) / 10

/-- The `resolvedTickets` filter of `stats`: completed, with truthy completion
and entry date strings. -/
def resolvedOf (fl : List Ticket) : List Ticket :=
  fl.filter (fun t =>
    t.status == Status.Abgeschlossen && truthyS t.completionDate && truthyS t.entryDate)

/-- One step of the `reduce` in `stats`: add `completion.getTime() -
entry.getTime()` when both parses are non-null (an Invalid Date is non-null
and makes the sum `NaN`), else add nothing. -/
def procContrib (t : Ticket) : Option Int :=
  match parseGermanDate t.entryDate, parseGermanDate t.completionDate with
  | some entry, some completion => jsSub completion entry
  | _, _ => some 0

/-- The aggregate stat cards; `avgProcessingTime` is the displayed
`toFixed(1)` value, `none` standing for the string `"NaN"`. -/
structure Stats where
  total : Nat
  abgeschlossene : Nat
  ueberfaellige : Nat
  avgProcessingTime : Option ℚ
  deriving DecidableEq, Repr

/-- `stats` over an already-filtered ticket list. -/
def statsOf (fl : List Ticket) : Stats :=
  let total := fl.length
  let abgeschlossene := (fl.filter (fun t => t.status == Status.Abgeschlossen)).length
  let ueberfaellige := (fl.filter (fun t => t.status == Status.Ueberfaellig)).length
  let resolvedTickets := resolvedOf fl
  let avg : Option ℚ :=
    if 0 < resolvedTickets.length then
      (resolvedTickets.foldl (fun acc t => jsAdd acc (procContrib t)) (some 0)).map
        (fun (totalTime : Int) =>
          (totalTime : ℚ) / (resolvedTickets.length : ℚ) / (msPerDay : ℚ))
    else some 0
  { total := total, abgeschlossene := abgeschlossene, ueberfaellige := ueberfaellige,
    avgProcessingTime := avg.map round1 }

/-- The `stats` memo of the view. -/
def stats (tickets : List Ticket) (f : ReportFilters) : Stats :=
  statsOf (filteredTickets tickets f)

/-! ## `Record<string, T>` as an insertion-ordered association list -/

/-- The keys of a record, in `Object.entries` order. -/
def keysOf (l : List (String × α)) : List String :=
  l.map Prod.fst

/-- `rec[k] !== undefined` (all values stored here are defined and truthy). -/
def hasKey (l : List (String × α)) (k : String) : Bool :=
  decide (k ∈ keysOf l)

/-- `rec[k] = v`: overwrite in place if present, else append. -/
def setKey (l : List (String × α)) (k : String) (v : α) : List (String × α) :=
  if hasKey l k then l.map (fun p => if p.1 = k then (k, v) else p)
  else l ++ [(k, v)]

/-- `rec[k]` as an option. -/
def getKey (l : List (String × α)) (k : String) : Option α :=
  (l.find? (fun p => p.1 == k)).map Prod.snd

/-- Update the value at a present key. -/
def modifyKey (l : List (String × α)) (k : String) (f : α → α) : List (String × α) :=
  l.map (fun p => if p.1 = k then (p.1, f p.2) else p)

/-! ## Source: the three technician charts and the area chart -/

/-- The `counts` record after `technicians.forEach(tech => counts[tech.name] = 0)`. -/
def initCounts (users : List User) : List (String × Nat) :=
  (technicians users).foldl (fun acc u => setKey acc u.name 0) []

/-- One `forEach` step of `ticketsByTechnician` (and, identically, of the
numerator counts of `technicianWorkload`):
`if (t.technician && t.technician !== 'N/A' && counts[t.technician] !== undefined) counts[t.technician] += 1`. -/
def techCountStep (acc : List (String × Nat)) (t : Ticket) : List (String × Nat) :=
  if t.technician ≠ "" ∧ t.technician ≠ "N/A" ∧ hasKey acc t.technician = true then
    modifyKey acc t.technician (· + 1)
  else acc

/-- The per-technician counts of `ticketsByTechnician` over a filtered list. -/
def techCountsOf (fl : List Ticket) (users : List User) : List (String × Nat) :=
  fl.foldl techCountStep (initCounts users)

/-- Descending-by-value comparison used by the count charts
(`(a, b) => b.value - a.value`). -/
def descNat (a b : String × Nat) : Prop := b.2 ≤ a.2

instance : DecidableRel descNat := fun a b => inferInstanceAs (Decidable (b.2 ≤ a.2))

instance : IsTotal (String × Nat) descNat := ⟨fun a b => le_total b.2 a.2⟩

instance : IsTrans (String × Nat) descNat := ⟨fun _ _ _ h1 h2 => le_trans h2 h1⟩

/-- Descending-by-value comparison on rational-valued entries. -/
def descQ (a b : String × ℚ) : Prop := b.2 ≤ a.2

instance : DecidableRel descQ := fun a b => inferInstanceAs (Decidable (b.2 ≤ a.2))

instance : IsTotal (String × ℚ) descQ := ⟨fun a b => le_total b.2 a.2⟩

instance : IsTrans (String × ℚ) descQ := ⟨fun _ _ _ h1 h2 => le_trans h2 h1⟩

/-- The comparator of `avgProcessingTimePerTechnician` under NaN values:
`b.value - a.value` is `NaN` when either side is, and a `NaN` comparator
result sorts like `0` (equal), so `NaN` compares both ways. -/
def descOptQ (a b : String × Option ℚ) : Prop :=
  match a.2, b.2 with
  | some x, some y => y ≤ x
  | _, _ => True

instance : DecidableRel descOptQ := fun a b => by
  unfold descOptQ
  match a.2, b.2 with
  | some x, some y => exact inferInstanceAs (Decidable (y ≤ x))
  | some _, none => exact inferInstanceAs (Decidable True)
  | none, some _ => exact inferInstanceAs (Decidable True)
  | none, none => exact inferInstanceAs (Decidable True)

/-- The fixed color palette of `ticketsByTechnician`. -/
def colors : List String :=
  ["#0d6efd", "#6f42c1", "#dc3545", "#fd7e14", "#198754", "#6c757d", "#343a40", "#adb5bd"]

/-- `sorted.map((item, index) => ({...item, color: colors[index % colors.length]}))`,
with the running index made explicit. -/
def addColors : Nat → List (String × Nat) → List (String × Nat × String)
  | _, [] => []
  | i, p :: rest => (p.1, p.2, colors.getD (i % colors.length) "") :: addColors (i + 1) rest

/-- `ticketsByTechnician`: zero-initialize every technician, count the
assigned filtered tickets, sort descending by count, attach colors. -/
def ticketsByTechnician (tickets : List Ticket) (users : List User)
    (f : ReportFilters) : List (String × Nat × String) :=
  addColors 0 (List.insertionSort descNat (techCountsOf (filteredTickets tickets f) users))

/-- The `activeTickets` of `technicianWorkload`:
`filteredTickets.filter(t => t.status !== Status.Abgeschlossen)`. -/
def activeOf (fl : List Ticket) : List Ticket :=
  fl.filter (fun t => !(t.status == Status.Abgeschlossen))

/-- The numerator counts of `technicianWorkload` (same initialization and
`forEach` body as `ticketsByTechnician`, but over the active tickets). -/
def workloadCounts (tickets : List Ticket) (users : List User)
    (f : ReportFilters) : List (String × Nat) :=
  (activeOf (filteredTickets tickets f)).foldl techCountStep (initCounts users)

/-- `technicianWorkload`: per-technician share of the active tickets, in
percent, `0` for everybody when no active ticket exists, sorted descending. -/
def technicianWorkload (tickets : List Ticket) (users : List User)
    (f : ReportFilters) : List (String × ℚ) :=
  let totalActiveTickets := (activeOf (filteredTickets tickets f)).length
  List.insertionSort descQ
    ((workloadCounts tickets users f).map (fun p =>
      (p.1, if 0 < totalActiveTickets then ((p.2 : ℚ) / totalActiveTickets) * 100 else 0)))

/-- The `resolvedTickets` of `avgProcessingTimePerTechnician`: completed, both
date strings truthy, technician not `"N/A"` (no truthiness check here). -/
def resolvedForTech (fl : List Ticket) : List Ticket :=
  fl.filter (fun t =>
    t.status == Status.Abgeschlossen && truthyS t.completionDate && truthyS t.entryDate &&
      t.technician ≠ "N/A")

/-- `technicians.forEach(tech => techData[tech.name] = { totalTime: 0, count: 0 })`. -/
def initTechData (users : List User) : List (String × (Option ℚ × Nat)) :=
  (technicians users).foldl (fun acc u => setKey acc u.name (some 0, 0)) []

/-- One `forEach` step of `avgProcessingTimePerTechnician`: when both parses
are non-null and `techData[t.technician]` is defined, add the (possibly NaN)
day difference to `totalTime` and bump `count`. -/
def techDataStep (acc : List (String × (Option ℚ × Nat))) (t : Ticket) :
    List (String × (Option ℚ × Nat)) :=
  match parseGermanDate t.entryDate, parseGermanDate t.completionDate with
  | some entry, some completion =>
    if hasKey acc t.technician = true then
      let time : Option ℚ :=
        (jsSub completion entry).map (fun (ms : Int) => (ms : ℚ) / (msPerDay : ℚ))
      modifyKey acc t.technician (fun d => (jsAddQ d.1 time, d.2 + 1))
    else acc
  | _, _ => acc

/-- The accumulated `techData` record over a ticket list. -/
def techDataOf (tickets : List Ticket) (users : List User)
    (f : ReportFilters) : List (String × (Option ℚ × Nat)) :=
  (resolvedForTech (filteredTickets tickets f)).foldl techDataStep (initTechData users)

/-- `avgProcessingTimePerTechnician`: mean processing days per technician
(`0` for a technician with no resolved ticket), sorted descending with the
NaN-tolerant comparator. -/
def avgProcessingTimePerTechnician (tickets : List Ticket) (users : List User)
    (f : ReportFilters) : List (String × Option ℚ) :=
  List.insertionSort descOptQ
    ((techDataOf tickets users f).map (fun p =>
      (p.1, if 0 < p.2.2 then p.2.1.map (· / (p.2.2 : ℚ)) else some 0)))

/-- One `reduce` step of `ticketsByArea`:
`acc[ticket.area] = (acc[ticket.area] || 0) + 1`. -/
def areaStep (acc : List (String × Nat)) (t : Ticket) : List (String × Nat) :=
  setKey acc t.area ((getKey acc t.area).getD 0 + 1)

/-- The per-area counts of `ticketsByArea` over a filtered list. -/
def areaCountsOf (fl : List Ticket) : List (String × Nat) :=
  fl.foldl areaStep []

/-- `ticketsByArea`: per-area counts, sorted descending, top 8. -/
def ticketsByArea (tickets : List Ticket) (f : ReportFilters) : List (String × Nat) :=
  (List.insertionSort descNat (areaCountsOf (filteredTickets tickets f))).take 8

/-! ## Derived predicates and helpers used by the statements -/

/-- Whether a `parseGermanDate` result is a valid (non-null, non-NaN) date. -/
def isValidDate : Option JSDate → Bool
  | some (some _) => true
  | _ => false

/-- Both dates of a ticket parse to valid dates. -/
def validDates (t : Ticket) : Bool :=
  isValidDate (parseGermanDate t.entryDate) && isValidDate (parseGermanDate t.completionDate)

/-- The completion-minus-entry difference of a ticket in milliseconds (`0`
when either date is missing or invalid; only used under `validDates`). -/
def msDiff (t : Ticket) : Int :=
  match parseGermanDate t.entryDate, parseGermanDate t.completionDate with
  | some (some e), some (some c) => c - e
  | _, _ => 0

/-- The completion-minus-entry difference of a ticket in days, as a rational. -/
def diffDaysQ (t : Ticket) : ℚ :=
  (msDiff t : ℚ) / msPerDay

/-- The spec's average processing time: the arithmetic mean of the day
differences over a resolved-ticket list (`0` on the empty list, since `x / 0
= 0` on `ℚ`). -/
def meanDiffDays (R : List Ticket) : ℚ :=
  (R.map diffDaysQ).sum / R.length

/-- A ticket is assigned to a known technician: non-empty, not `"N/A"`, and
among the technician users' names. -/
def assignedTo (users : List User) (t : Ticket) : Bool :=
  decide (t.technician ≠ "" ∧ t.technician ≠ "N/A" ∧ t.technician ∈ techNames users)

/-- Sum of the numeric values of a record / entry list. -/
def sumVals (l : List (String × Nat)) : Nat :=
  (l.map Prod.snd).sum

/-- Sum of the percentage values of the workload chart. -/
def sumValsQ (l : List (String × ℚ)) : ℚ :=
  (l.map Prod.snd).sum

/-! ## Concrete inputs used by counterexamples and witnesses -/

/-- The all-pass filter state (`timeRange = 'all'`, all categories `'Alle'`). -/
def fAll : ReportFilters :=
  { timeRange := TimeRange.all, area := "Alle", status := "Alle", technician := "Alle" }

/-- A 7-day filter state with all categorical filters off. -/
def f7 : ReportFilters :=
  { timeRange := TimeRange.d7, area := "Alle", status := "Alle", technician := "Alle" }

/-- A single technician user named `"T1"`. -/
def userT1 : User := { name := "T1", role := Role.Technician }

/-- A second technician user named `"T2"`. -/
def userT2 : User := { name := "T2", role := Role.Technician }

/-- A technician user whose name is the empty string. -/
def userEmptyName : User := { name := "", role := Role.Technician }

/-- An active (non-completed) ticket assigned to `"N/A"`. -/
def ticketNA : Ticket :=
  { entryDate := some "01.01.2026", completionDate := none, status := "Offen",
    area := "A", technician := "N/A" }

/-- A ticket whose entry date `"a.b.c"` splits into three parts but parses to
an Invalid Date. -/
def ticketGarbledDate : Ticket :=
  { entryDate := some "a.b.c", completionDate := none, status := "Offen",
    area := "A", technician := "X" }

/-- An old ticket (entry 2020), outside every bounded range from Feb 2026. -/
def ticketOld : Ticket :=
  { entryDate := some "01.01.2020", completionDate := none, status := "Offen",
    area := "A", technician := "X" }

/-- The completed ticket of the spec's ten-day example. -/
def ticketTenDays : Ticket :=
  { entryDate := some "01.01.2026", completionDate := some "11.01.2026",
    status := Status.Abgeschlossen, area := "A", technician := "T1" }

/-- A completed ticket with a one-day processing time, technician `"T1"`. -/
def ticketOneDay : Ticket :=
  { entryDate := some "01.01.2026", completionDate := some "02.01.2026",
    status := Status.Abgeschlossen, area := "A", technician := "T1" }

/-- A completed ticket with a two-day processing time, technician `"T2"`. -/
def ticketTwoDays : Ticket :=
  { entryDate := some "01.01.2026", completionDate := some "03.01.2026",
    status := Status.Abgeschlossen, area := "B", technician := "T2" }

/-- A completed ticket with empty dates-adjacent fields: empty technician,
valid one-day processing time. -/
def ticketEmptyTech : Ticket :=
  { entryDate := some "01.01.2026", completionDate := some "02.01.2026",
    status := Status.Abgeschlossen, area := "A", technician := "" }

/-- An active ticket assigned to `"T1"`. -/
def ticketActiveT1 : Ticket :=
  { entryDate := some "01.02.2026", completionDate := none, status := "Offen",
    area := "A", technician := "T1" }

/-- An active ticket assigned to `"T2"`. -/
def ticketActiveT2 : Ticket :=
  { entryDate := some "02.02.2026", completionDate := none, status := "Offen",
    area := "B", technician := "T2" }

/-- A ticket whose entry date is the literal string `"N/A"`. -/
def ticketNoDate : Ticket :=
  { entryDate := some "N/A", completionDate := none, status := "Offen",
    area := "A", technician := "X" }

/-- An initializer environment with a complete, valid configuration. -/
def envGood : InitEnv :=
  { localUrl := some "http://example.test", localKey := some "anon-key",
    envUrl := none, envKey := none,
    getUrlThrows := false, getKeyThrows := false, createOk := true }

/-- An initializer environment where `createClient` throws. -/
def envCreateThrows : InitEnv :=
  { localUrl := some "http://example.test", localKey := some "anon-key",
    envUrl := none, envKey := none,
    getUrlThrows := false, getKeyThrows := false, createOk := false }

/-- An initializer environment with only a key configured (warning case). -/
def envKeyOnly : InitEnv :=
  { localUrl := none, localKey := some "anon-key",
    envUrl := none, envKey := none,
    getUrlThrows := false, getKeyThrows := false, createOk := true }

/-! ## Record lemmas -/

theorem keysOf_nil : keysOf ([] : List (String × α)) = [] := rfl

theorem keysOf_cons (p : String × α) (l : List (String × α)) :
    keysOf (p :: l) = p.1 :: keysOf l := rfl

theorem hasKey_iff (l : List (String × α)) (k : String) :
    hasKey l k = true ↔ k ∈ keysOf l := by
  simp [hasKey]

theorem hasKey_congr {l : List (String × α)} {l' : List (String × β)} (k : String)
    (h : keysOf l = keysOf l') : hasKey l k = hasKey l' k := by
  simp [hasKey, h]

theorem keysOf_map_fst_eq (g : String × α → String × α) (hg : ∀ p, (g p).1 = p.1) :
    ∀ l : List (String × α), keysOf (l.map g) = keysOf l := by
  intro l
  induction l with
  | nil => rfl
  | cons p rest ih =>
    simp only [List.map_cons, keysOf_cons, ih]
    rw [hg p]

theorem keysOf_modifyKey (l : List (String × α)) (k : String) (f : α → α) :
    keysOf (modifyKey l k f) = keysOf l := by
  unfold modifyKey
  exact keysOf_map_fst_eq _ (fun p => by by_cases h : p.1 = k <;> simp [h]) l

theorem modifyKey_of_not_mem {l : List (String × α)} {k : String} (f : α → α)
    (h : k ∉ keysOf l) : modifyKey l k f = l := by
  induction l with
  | nil => rfl
  | cons p rest ih =>
    rw [keysOf_cons, List.mem_cons] at h
    push_neg at h
    simp only [modifyKey, List.map_cons]
    rw [if_neg (fun hp => h.1 hp.symm)]
    have := ih h.2
    simp only [modifyKey] at this
    rw [this]

theorem keysOf_setKey (l : List (String × α)) (k : String) (v : α) :
    keysOf (setKey l k v) = if k ∈ keysOf l then keysOf l else keysOf l ++ [k] := by
  unfold setKey
  by_cases h : k ∈ keysOf l
  · rw [if_pos ((hasKey_iff l k).mpr h), if_pos h]
    exact keysOf_map_fst_eq _ (fun p => by by_cases hp : p.1 = k <;> simp [hp]) l
  · rw [if_neg (fun hh => h ((hasKey_iff l k).mp hh)), if_neg h]
    simp [keysOf]

theorem setKey_values (l : List (String × α)) (k : String) (v : α)
    (h : ∀ p ∈ l, p.2 = v) : ∀ p ∈ setKey l k v, p.2 = v := by
  intro p hp
  unfold setKey at hp
  by_cases hk : hasKey l k = true
  · rw [if_pos hk] at hp
    obtain ⟨q, hq, rfl⟩ := List.mem_map.mp hp
    by_cases hq1 : q.1 = k
    · simp [hq1]
    · simpa [hq1] using h q hq
  · rw [if_neg hk] at hp
    rcases List.mem_append.mp hp with hm | hm
    · exact h p hm
    · simp only [List.mem_singleton] at hm
      rw [hm]

theorem foldl_setKey_keys (v : α) :
    ∀ (us : List User) (acc : List (String × α)), (keysOf acc).Nodup →
      (keysOf (us.foldl (fun a u => setKey a u.name v) acc)).Nodup ∧
      (∀ x, x ∈ keysOf (us.foldl (fun a u => setKey a u.name v) acc) ↔
        x ∈ keysOf acc ∨ x ∈ us.map User.name) := by
  intro us
  induction us with
  | nil =>
    intro acc h
    exact ⟨h, by simp⟩
  | cons u rest ih =>
    intro acc h
    rw [List.foldl_cons]
    by_cases hmem : u.name ∈ keysOf acc
    · have h1 : keysOf (setKey acc u.name v) = keysOf acc := by
        rw [keysOf_setKey, if_pos hmem]
      obtain ⟨n1, m1⟩ := ih (setKey acc u.name v) (h1 ▸ h)
      refine ⟨n1, fun x => ?_⟩
      rw [m1 x, h1, List.map_cons, List.mem_cons]
      constructor
      · rintro (hx | hx)
        · exact Or.inl hx
        · exact Or.inr (Or.inr hx)
      · rintro (hx | hx | hx)
        · exact Or.inl hx
        · exact Or.inl (hx ▸ hmem)
        · exact Or.inr hx
    · have h1 : keysOf (setKey acc u.name v) = keysOf acc ++ [u.name] := by
        rw [keysOf_setKey, if_neg hmem]
      have h2 : (keysOf (setKey acc u.name v)).Nodup := by
        rw [h1, List.nodup_append]
        exact ⟨h, List.nodup_singleton _, by simpa using hmem⟩
      obtain ⟨n1, m1⟩ := ih (setKey acc u.name v) h2
      refine ⟨n1, fun x => ?_⟩
      rw [m1 x, h1, List.map_cons, List.mem_cons, List.mem_append, List.mem_singleton]
      tauto

theorem foldl_setKey_values (v : α) :
    ∀ (us : List User) (acc : List (String × α)), (∀ p ∈ acc, p.2 = v) →
      ∀ p ∈ us.foldl (fun a u => setKey a u.name v) acc, p.2 = v := by
  intro us
  induction us with
  | nil => intro acc h; exact h
  | cons u rest ih =>
    intro acc h
    rw [List.foldl_cons]
    exact ih _ (setKey_values acc u.name v h)

theorem initCounts_keys_nodup (users : List User) : (keysOf (initCounts users)).Nodup :=
  (foldl_setKey_keys 0 (technicians users) [] (by simp [keysOf])).1

theorem initCounts_keys_mem (users : List User) (x : String) :
    x ∈ keysOf (initCounts users) ↔ x ∈ techNames users := by
  have := (foldl_setKey_keys 0 (technicians users) [] (by simp [keysOf])).2 x
  simpa [keysOf, techNames] using this

theorem initCounts_values (users : List User) : ∀ p ∈ initCounts users, p.2 = 0 :=
  foldl_setKey_values 0 (technicians users) [] (by simp)

theorem initTechData_keys_mem (users : List User) (x : String) :
    x ∈ keysOf (initTechData users) ↔ x ∈ techNames users := by
  have := (foldl_setKey_keys ((some 0 : Option ℚ), (0 : Nat)) (technicians users) []
    (by simp [keysOf])).2 x
  simpa [keysOf, techNames] using this

/-! ## Count-chart lemmas -/

theorem keysOf_techCountStep (acc : List (String × Nat)) (t : Ticket) :
    keysOf (techCountStep acc t) = keysOf acc := by
  unfold techCountStep
  by_cases h : t.technician ≠ "" ∧ t.technician ≠ "N/A" ∧ hasKey acc t.technician = true
  · rw [if_pos h, keysOf_modifyKey]
  · rw [if_neg h]

theorem keysOf_foldl_techCountStep :
    ∀ (fl : List Ticket) (acc : List (String × Nat)),
      keysOf (fl.foldl techCountStep acc) = keysOf acc := by
  intro fl
  induction fl with
  | nil => intro acc; rfl
  | cons t rest ih =>
    intro acc
    rw [List.foldl_cons, ih, keysOf_techCountStep]

theorem techCountStep_congr_guard (acc acc' : List (String × Nat)) (t : Ticket)
    (h : keysOf acc = keysOf acc') :
    (decide (t.technician ≠ "" ∧ t.technician ≠ "N/A" ∧ hasKey acc t.technician = true)) =
    (decide (t.technician ≠ "" ∧ t.technician ≠ "N/A" ∧ hasKey acc' t.technician = true)) := by
  rw [hasKey_congr t.technician h]

theorem sumVals_modifyKey_succ {k : String} :
    ∀ (l : List (String × Nat)), (keysOf l).Nodup → k ∈ keysOf l →
      sumVals (modifyKey l k (· + 1)) = sumVals l + 1 := by
  intro l
  induction l with
  | nil => intro _ h; simp [keysOf] at h
  | cons p rest ih =>
    intro hnd hmem
    rw [keysOf_cons] at hnd hmem
    by_cases h : p.1 = k
    · have hnot : k ∉ keysOf rest := by
        rw [← h]; exact (List.nodup_cons.mp hnd).1
      simp only [modifyKey, List.map_cons, if_pos h]
      have hrest : modifyKey rest k (· + 1) = rest := modifyKey_of_not_mem _ hnot
      simp only [modifyKey] at hrest
      rw [hrest]
      simp [sumVals]
      omega
    · have hk : k ∈ keysOf rest := by
        rcases List.mem_cons.mp hmem with hx | hx
        · exact absurd hx.symm h
        · exact hx
      have := ih (List.nodup_cons.mp hnd).2 hk
      simp only [modifyKey, List.map_cons, if_neg h] at *
      simp only [sumVals, List.map_cons, List.sum_cons] at *
      omega

theorem sumVals_techCountStep (acc : List (String × Nat)) (t : Ticket)
    (hnd : (keysOf acc).Nodup) :
    sumVals (techCountStep acc t) = sumVals acc +
      (if (decide (t.technician ≠ "" ∧ t.technician ≠ "N/A" ∧ hasKey acc t.technician = true))
        then 1 else 0) := by
  unfold techCountStep
  by_cases h : t.technician ≠ "" ∧ t.technician ≠ "N/A" ∧ hasKey acc t.technician = true
  · rw [if_pos h, sumVals_modifyKey_succ acc hnd ((hasKey_iff acc t.technician).mp h.2.2)]
    simp [h]
  · rw [if_neg h]
    simp [h]

theorem sumVals_foldl_techCountStep :
    ∀ (fl : List Ticket) (acc : List (String × Nat)), (keysOf acc).Nodup →
      sumVals (fl.foldl techCountStep acc) = sumVals acc +
        fl.countP (fun t =>
          decide (t.technician ≠ "" ∧ t.technician ≠ "N/A" ∧ hasKey acc t.technician = true)) := by
  intro fl
  induction fl with
  | nil => intro acc _; simp
  | cons t rest ih =>
    intro acc hnd
    rw [List.foldl_cons]
    have hkeys : keysOf (techCountStep acc t) = keysOf acc := keysOf_techCountStep acc t
    rw [ih (techCountStep acc t) (hkeys ▸ hnd), sumVals_techCountStep acc t hnd,
      List.countP_cons]
    have hcong : rest.countP (fun x =>
        decide (x.technician ≠ "" ∧ x.technician ≠ "N/A" ∧
          hasKey (techCountStep acc t) x.technician = true)) =
      rest.countP (fun x =>
        decide (x.technician ≠ "" ∧ x.technician ≠ "N/A" ∧ hasKey acc x.technician = true)) :=
      List.countP_congr (fun x _ => by rw [techCountStep_congr_guard acc (techCountStep acc t) x
        hkeys.symm])
    rw [hcong]
    omega

/-- Over an accumulator whose keys are exactly the technician names, the fold
guard coincides with `assignedTo`. -/
theorem countP_guard_eq_assigned (users : List User) (fl : List Ticket)
    (acc : List (String × Nat)) (hk : ∀ x, x ∈ keysOf acc ↔ x ∈ techNames users) :
    fl.countP (fun t =>
        decide (t.technician ≠ "" ∧ t.technician ≠ "N/A" ∧ hasKey acc t.technician = true)) =
      fl.countP (assignedTo users) := by
  refine List.countP_congr (fun t _ => ?_)
  simp only [assignedTo, decide_eq_true_eq, hasKey_iff, hk]

/-- The per-technician counts of the count chart and the workload numerators
sum to the number of assigned tickets in the processed list. -/
theorem sumVals_counts (fl : List Ticket) (users : List User) :
    sumVals (fl.foldl techCountStep (initCounts users)) = fl.countP (assignedTo users) := by
  rw [sumVals_foldl_techCountStep fl (initCounts users) (initCounts_keys_nodup users),
    countP_guard_eq_assigned users fl (initCounts users) (initCounts_keys_mem users)]
  have h0 : sumVals (initCounts users) = 0 :=
    List.sum_eq_zero (fun x hx => by
      obtain ⟨p, hp, rfl⟩ := List.mem_map.mp hx
      exact initCounts_values users p hp)
  rw [h0, Nat.zero_add]

/-! ## Sum-algebra lemmas -/

theorem sumValsQ_perm {l l' : List (String × ℚ)} (h : l.Perm l') :
    sumValsQ l = sumValsQ l' :=
  (h.map Prod.snd).sum_eq

theorem sumValsQ_scale (l : List (String × Nat)) (T : ℚ) :
    sumValsQ (l.map (fun p => (p.1, ((p.2 : ℚ) / T) * 100))) =
      ((sumVals l : ℚ) * 100) / T := by
  induction l with
  | nil => simp [sumValsQ, sumVals]
  | cons p rest ih =>
    simp only [sumValsQ, sumVals, List.map_cons, List.sum_cons] at *
    rw [ih]
    push_cast
    ring

theorem sum_diffDaysQ (R : List Ticket) :
    (R.map diffDaysQ).sum = (((R.map msDiff).sum : ℤ) : ℚ) / msPerDay := by
  induction R with
  | nil => simp
  | cons t rest ih =>
    simp only [List.map_cons, List.sum_cons, diffDaysQ, ih]
    push_cast
    ring

/-- The `reduce` of `stats` over resolved tickets whose dates all parse
validly: no `NaN` ever appears and the sum is the plain integer sum. -/
theorem foldl_jsAdd_of_valid :
    ∀ (R : List Ticket) (a : Int), (∀ t ∈ R, validDates t = true) →
      R.foldl (fun acc t => jsAdd acc (procContrib t)) (some a) =
        some (a + (R.map msDiff).sum) := by
  intro R
  induction R with
  | nil => intro a _; simp
  | cons t rest ih =>
    intro a hv
    have hvt : validDates t = true := hv t (List.mem_cons_self t rest)
    have hcontrib : procContrib t = some (msDiff t) := by
      unfold validDates isValidDate at hvt
      unfold procContrib msDiff
      rcases he : parseGermanDate t.entryDate with _ | (_ | e) <;>
        rcases hc : parseGermanDate t.completionDate with _ | (_ | c) <;>
          simp [he, hc, jsSub] at hvt ⊢
    rw [List.foldl_cons, hcontrib]
    show rest.foldl (fun acc t => jsAdd acc (procContrib t)) (some (a + msDiff t)) = _
    rw [ih (a + msDiff t) (fun x hx => hv x (List.mem_cons_of_mem t hx))]
    simp only [List.map_cons, List.sum_cons]
    rw [add_assoc]

/-! ## Color-annotation lemmas -/

theorem addColors_map_val :
    ∀ (i : Nat) (l : List (String × Nat)),
      (addColors i l).map (fun e => e.2.1) = l.map Prod.snd := by
  intro i l
  induction l generalizing i with
  | nil => rfl
  | cons p rest ih => simp [addColors, ih]

theorem addColors_countP_label (n : String) :
    ∀ (i : Nat) (l : List (String × Nat)),
      (addColors i l).countP (fun e => e.1 == n) = l.countP (fun p => p.1 == n) := by
  intro i l
  induction l generalizing i with
  | nil => rfl
  | cons p rest ih =>
    simp only [addColors, List.countP_cons, ih]

theorem addColors_mem_label :
    ∀ (i : Nat) (l : List (String × Nat)) (e : String × Nat × String),
      e ∈ addColors i l → e.1 ∈ keysOf l := by
  intro i l
  induction l generalizing i with
  | nil => intro e he; simp [addColors] at he
  | cons p rest ih =>
    intro e he
    rw [keysOf_cons]
    rcases List.mem_cons.mp he with rfl | hm
    · exact List.mem_cons_self _ _
    · exact List.mem_cons_of_mem _ (ih (i + 1) e hm)

/-! ## Step-identity lemmas (unassigned tickets) -/

theorem techCountStep_id (acc : List (String × Nat)) (t : Ticket)
    (h : t.technician = "" ∨ t.technician = "N/A" ∨ hasKey acc t.technician = false) :
    techCountStep acc t = acc := by
  unfold techCountStep
  rcases h with h | h | h <;> rw [if_neg (by simp [h])]

theorem techDataStep_id (acc : List (String × (Option ℚ × Nat))) (t : Ticket)
    (h : hasKey acc t.technician = false) : techDataStep acc t = acc := by
  unfold techDataStep
  rcases he : parseGermanDate t.entryDate with _ | e <;>
    rcases hc : parseGermanDate t.completionDate with _ | c <;> simp [h]

theorem keysOf_techDataStep (acc : List (String × (Option ℚ × Nat))) (t : Ticket) :
    keysOf (techDataStep acc t) = keysOf acc := by
  unfold techDataStep
  rcases he : parseGermanDate t.entryDate with _ | e <;>
    rcases hc : parseGermanDate t.completionDate with _ | c <;>
      simp only []
  by_cases h : hasKey acc t.technician = true
  · rw [if_pos h, keysOf_modifyKey]
  · rw [if_neg h]

theorem keysOf_foldl_techDataStep :
    ∀ (fl : List Ticket) (acc : List (String × (Option ℚ × Nat))),
      keysOf (fl.foldl techDataStep acc) = keysOf acc := by
  intro fl
  induction fl with
  | nil => intro acc; rfl
  | cons t rest ih =>
    intro acc
    rw [List.foldl_cons, ih, keysOf_techDataStep]

/-! ## Claim C9 -/

/-- C9: for every prior filter state, `resetFilters` yields the state with
time range `'30d'` and area, status and technician all `'Alle'`. -/
theorem resetFilters_restores_defaults (prev : ReportFilters) :
    resetFilters prev =
      { timeRange := TimeRange.d30, area := "Alle", status := "Alle", technician := "Alle" } :=
  rfl

/-! ## Claim C4 -/

/-- C4 counterexample: the initial filter state does not select all tickets —
`ticketOld` is dropped by the initial (30-day) filters although the same
categorical filters with time range `'all'` keep it, so not every field of
the initial state is the "show all" value. -/
theorem initialFilters_not_show_all :
    filteredTickets [ticketOld] initialReportFilters = [] ∧
    filteredTickets [ticketOld]
      { initialReportFilters with timeRange := TimeRange.all } = [ticketOld] ∧
    initialReportFilters.timeRange ≠ TimeRange.all := by
  refine ⟨by decide, by decide, by decide⟩

/-- C4 (amended): the categorical fields of the initial filter state are the
"show all" value `'Alle'` — with time range forced to `'all'` the initial
categorical filters keep every ticket — but the initial time range itself is
`'30d'`, not `'all'`. -/
theorem initialFilters_categoricals_show_all :
    initialReportFilters =
      { timeRange := TimeRange.d30, area := "Alle", status := "Alle", technician := "Alle" } ∧
    ∀ (tickets : List Ticket),
      filteredTickets tickets { initialReportFilters with timeRange := TimeRange.all } =
        tickets := by
  refine ⟨rfl, fun tickets => ?_⟩
  refine List.filter_eq_self.mpr (fun t _ => ?_)
  simp [keepTicket, dateCheck, catMatch, initialReportFilters]

/-! ## Claim C8 -/

/-- C8: the ticket with entry `"01.01.2026"` and completion `"11.01.2026"`
has a completion-minus-entry difference of exactly 10 days under
`parseGermanDate`, and as the only resolved ticket it makes the displayed
average processing time exactly `10.0`. -/
theorem tenDay_ticket_contributes_ten_days :
    validDates ticketTenDays = true ∧
    msDiff ticketTenDays = 10 * msPerDay ∧
    diffDaysQ ticketTenDays = 10 ∧
    (statsOf [ticketTenDays]).avgProcessingTime = some 10 ∧
    (stats [ticketTenDays] fAll).avgProcessingTime = some 10 := by
  have h0 : filteredTickets [ticketTenDays] fAll = [ticketTenDays] := by decide
  have h1 : resolvedOf [ticketTenDays] = [ticketTenDays] := by decide
  have h2 : procContrib ticketTenDays = some 864000000 := by decide
  have hmd : msDiff ticketTenDays = 864000000 := by decide
  refine ⟨by decide, by decide, ?_, ?_, ?_⟩
  · rw [diffDaysQ, hmd]
    norm_num [msPerDay]
  · simp only [statsOf, h1, List.foldl_cons, List.foldl_nil, h2, jsAdd]
    norm_num [round1, msPerDay]
  · simp only [stats, h0, statsOf, h1, List.foldl_cons, List.foldl_nil, h2, jsAdd]
    norm_num [round1, msPerDay]

/-! ## Claim C2 -/

/-- C2 counterexample: the entry date `"a.b.c"` does not parse to a valid
date (it yields an Invalid Date, `some none`), yet under the bounded 7-day
range the ticket is kept, because `NaN < cutoff` is false in JS — so a ticket
with an unparseable entry date is not always excluded. -/
theorem garbled_date_kept_under_bounded_range :
    parseGermanDate ticketGarbledDate.entryDate = some none ∧
    isValidDate (parseGermanDate ticketGarbledDate.entryDate) = false ∧
    filteredTickets [ticketGarbledDate] f7 = [ticketGarbledDate] := by
  refine ⟨by decide, by decide, by decide⟩

/-- C2 (amended): under a bounded time range a ticket is excluded on account
of its entry date exactly when `parseGermanDate` returns `null` — in
particular when the entry date is absent or `"N/A"` — while a three-part
entry date that yields an Invalid Date (`some none`) passes the date check;
with time range `'all'` no ticket is excluded on account of its entry date
(the ticket is kept whenever the categorical filters match). -/
theorem bounded_range_excludes_null_parse (t : Ticket) (f : ReportFilters) :
    (f.timeRange = TimeRange.all → keepTicket f t = catMatch f t) ∧
    (f.timeRange ≠ TimeRange.all → parseGermanDate t.entryDate = none →
      keepTicket f t = false) ∧
    (f.timeRange ≠ TimeRange.all → parseGermanDate t.entryDate = some none →
      keepTicket f t = catMatch f t) ∧
    (t.entryDate = none ∨ t.entryDate = some "N/A" → parseGermanDate t.entryDate = none) := by
  refine ⟨?_, ?_, ?_, ?_⟩
  · intro h
    simp [keepTicket, dateCheck, h]
  · intro hne hp
    cases htr : f.timeRange <;> simp [htr] at hne ⊢ <;>
      simp [keepTicket, dateCheck, htr, hp]
  · intro hne hp
    cases htr : f.timeRange <;> simp [htr] at hne ⊢ <;>
      simp [keepTicket, dateCheck, htr, hp]
  · rintro (h | h) <;> rw [h] <;> decide

/-- C2 witness: a ticket with entry date `"N/A"` is excluded under the 7-day
range, via the amended theorem at a concrete input. -/
theorem bounded_range_excludes_null_parse_witness :
    keepTicket f7 ticketNoDate = false :=
  (bounded_range_excludes_null_parse ticketNoDate f7).2.1 (by decide)
    ((bounded_range_excludes_null_parse ticketNoDate f7).2.2.2 (Or.inr rfl))

/-! ## Claim C5 -/

/-- C5: over the resolved configuration strings (after fallback and
trimming), when the lookups do not throw and construction succeeds, the
client handle is constructed iff both strings are non-empty and the URL
starts with `"http"`; otherwise, when at least one string is non-empty, the
incomplete-configuration warning is emitted and the exported handle stays
null; when both are empty, neither happens. -/
theorem client_constructed_iff_valid_config (env : InitEnv)
    (hU : env.getUrlThrows = false) (hK : env.getKeyThrows = false)
    (hC : env.createOk = true) :
    ((resolvedUrl env ≠ "" ∧ resolvedKey env ≠ "" ∧
        jsStartsWith (resolvedUrl env) "http" = true) →
      supabase env = some (resolvedUrl env, resolvedKey env) ∧
        (runInit env).warned = false) ∧
    (¬(resolvedUrl env ≠ "" ∧ resolvedKey env ≠ "" ∧
        jsStartsWith (resolvedUrl env) "http" = true) →
      (resolvedUrl env ≠ "" ∨ resolvedKey env ≠ "") →
      supabase env = none ∧ (runInit env).warned = true) ∧
    (resolvedUrl env = "" ∧ resolvedKey env = "" →
      supabase env = none ∧ (runInit env).warned = false) := by
  refine ⟨?_, ?_, ?_⟩
  · intro hcond
    have hcond' := hcond
    simp only [resolvedUrl, resolvedKey] at hcond'
    have hb : tryBody env = Except.ok (some (resolvedUrl env, resolvedKey env), false) := by
      unfold tryBody
      rw [hU, hK, hC]
      simp only [Bool.false_eq_true, if_false]
      rw [if_pos hcond']
      simp [resolvedUrl, resolvedKey]
    simp [supabase, runInit, hb]
  · intro hcond hor
    have hcond' := hcond
    have hor' := hor
    simp only [resolvedUrl, resolvedKey] at hcond' hor'
    have hb : tryBody env = Except.ok (none, true) := by
      unfold tryBody
      rw [hU, hK]
      simp only [Bool.false_eq_true, if_false]
      rw [if_neg hcond', if_pos hor']
    simp [supabase, runInit, hb]
  · intro hempty
    have hempty' := hempty
    simp only [resolvedUrl, resolvedKey] at hempty'
    have hb : tryBody env = Except.ok (none, false) := by
      unfold tryBody
      rw [hU, hK]
      simp only [Bool.false_eq_true, if_false]
      rw [if_neg (by simp [hempty'.1]), if_neg (by simp [hempty'.1, hempty'.2])]
    simp [supabase, runInit, hb]

/-- C5 witness: with a complete valid configuration the handle is
constructed, and with only a key configured the warning fires and the handle
stays null. -/
theorem client_constructed_iff_valid_config_witness :
    supabase envGood = some ("http://example.test", "anon-key") ∧
    supabase envKeyOnly = none ∧ (runInit envKeyOnly).warned = true := by
  have h1 := (client_constructed_iff_valid_config envGood rfl rfl rfl).1 (by decide)
  have h2 := (client_constructed_iff_valid_config envKeyOnly rfl rfl rfl).2.1
    (by decide) (by decide)
  exact ⟨h1.1.trans rfl, h2.1, h2.2⟩

/-! ## Claim C6 -/

/-- C6: whatever the behaviour of the configuration lookups and of client
construction, a thrown error is caught: the initializer still returns (with
`errored` logged) and the exported handle is unset. -/
theorem init_catches_all_errors (env : InitEnv) (e : String)
    (h : tryBody env = Except.error e) :
    runInit env = { client := none, warned := false, errored := true } ∧
    supabase env = none := by
  constructor
  · simp [runInit, h]
  · simp [supabase, runInit, h]

/-- C6 witness: with `createClient` throwing on a valid configuration, the
error is caught and the exported handle is `null`. -/
theorem init_catches_all_errors_witness :
    runInit envCreateThrows = { client := none, warned := false, errored := true } ∧
    supabase envCreateThrows = none :=
  init_catches_all_errors envCreateThrows "createClient" rfl

/-! ## Claim C1 -/

/-- C1 counterexample: one active filtered ticket exists, but it is assigned
to `"N/A"`, so every workload percentage is `0` and the percentages sum to
`0`, not `100` (±rounding). -/
theorem workload_sum_not_100_with_NA_ticket :
    (activeOf (filteredTickets [ticketNA] fAll)).length = 1 ∧
    technicianWorkload [ticketNA] [userT1] fAll = [("T1", 0)] ∧
    sumValsQ (technicianWorkload [ticketNA] [userT1] fAll) = 0 := by
  have h0 : activeOf (filteredTickets [ticketNA] fAll) = [ticketNA] := by decide
  have hcounts : workloadCounts [ticketNA] [userT1] fAll = [("T1", 0)] := by decide
  have hchart : technicianWorkload [ticketNA] [userT1] fAll = [("T1", 0)] := by
    simp only [technicianWorkload, hcounts, h0, List.length_cons, List.length_nil]
    norm_num [List.insertionSort]
  exact ⟨by rw [h0]; rfl, hchart, by rw [hchart]; simp [sumValsQ]⟩

/-- C1 (amended): the workload percentages are all `0` when no active
filtered ticket exists; when at least one exists their sum is
`100 · (number of active tickets assigned to a known technician) / (number of
active tickets)` — in particular exactly `100` when every active filtered
ticket is assigned to a known technician (non-empty, not `"N/A"`, a
technician user's name), but not in general. -/
theorem workload_percentages_sum (tickets : List Ticket) (users : List User)
    (f : ReportFilters) :
    ((activeOf (filteredTickets tickets f)).length = 0 →
      ∀ p ∈ technicianWorkload tickets users f, p.2 = 0) ∧
    (0 < (activeOf (filteredTickets tickets f)).length →
      sumValsQ (technicianWorkload tickets users f) =
        (((activeOf (filteredTickets tickets f)).countP (assignedTo users) : ℚ) * 100) /
          ((activeOf (filteredTickets tickets f)).length : ℚ)) ∧
    (0 < (activeOf (filteredTickets tickets f)).length →
      (∀ t ∈ activeOf (filteredTickets tickets f), assignedTo users t = true) →
      sumValsQ (technicianWorkload tickets users f) = 100) := by
  have hsum : sumVals (workloadCounts tickets users f) =
      (activeOf (filteredTickets tickets f)).countP (assignedTo users) :=
    sumVals_counts (activeOf (filteredTickets tickets f)) users
  have hformula : 0 < (activeOf (filteredTickets tickets f)).length →
      sumValsQ (technicianWorkload tickets users f) =
        (((activeOf (filteredTickets tickets f)).countP (assignedTo users) : ℚ) * 100) /
          ((activeOf (filteredTickets tickets f)).length : ℚ) := by
    intro hpos
    have hperm := sumValsQ_perm (List.perm_insertionSort descQ
      ((workloadCounts tickets users f).map (fun p =>
        (p.1, if 0 < (activeOf (filteredTickets tickets f)).length then
          ((p.2 : ℚ) / ((activeOf (filteredTickets tickets f)).length : ℚ)) * 100 else 0))))
    have hmap : (workloadCounts tickets users f).map (fun p =>
        (p.1, if 0 < (activeOf (filteredTickets tickets f)).length then
          ((p.2 : ℚ) / ((activeOf (filteredTickets tickets f)).length : ℚ)) * 100 else 0)) =
        (workloadCounts tickets users f).map (fun p =>
        (p.1, ((p.2 : ℚ) / ((activeOf (filteredTickets tickets f)).length : ℚ)) * 100)) :=
      List.map_congr_left (fun p _ => by rw [if_pos hpos])
    calc sumValsQ (technicianWorkload tickets users f)
        = sumValsQ ((workloadCounts tickets users f).map (fun p =>
            (p.1, ((p.2 : ℚ) / ((activeOf (filteredTickets tickets f)).length : ℚ)) * 100))) := by
          rw [technicianWorkload, hperm, hmap]
      _ = ((sumVals (workloadCounts tickets users f) : ℚ) * 100) /
            ((activeOf (filteredTickets tickets f)).length : ℚ) :=
          sumValsQ_scale (workloadCounts tickets users f) _
      _ = (((activeOf (filteredTickets tickets f)).countP (assignedTo users) : ℚ) * 100) /
            ((activeOf (filteredTickets tickets f)).length : ℚ) := by rw [hsum]
  refine ⟨?_, hformula, ?_⟩
  · intro h0 p hp
    simp only [technicianWorkload] at hp
    have hp' := (List.perm_insertionSort descQ _).mem_iff.mp hp
    obtain ⟨q, _, rfl⟩ := List.mem_map.mp hp'
    simp [h0]
  · intro hpos hall
    rw [hformula hpos, List.countP_eq_length.mpr hall]
    have hne : ((activeOf (filteredTickets tickets f)).length : ℚ) ≠ 0 := by
      exact_mod_cast Nat.pos_iff_ne_zero.mp hpos
    field_simp

/-- C1 witness: with two active tickets each assigned to a known technician,
the workload percentages sum to exactly `100`. -/
theorem workload_percentages_sum_witness :
    sumValsQ (technicianWorkload [ticketActiveT1, ticketActiveT2] [userT1, userT2] fAll) = 100 :=
  (workload_percentages_sum [ticketActiveT1, ticketActiveT2] [userT1, userT2] fAll).2.2
    (by decide) (by decide)

/-! ## Claim C7 -/

/-- C7: the count chart has exactly one entry labelled with each technician
user's name (zero-count ones included), every entry is labelled with a
technician's name, and the entries are sorted in descending order of count. -/
theorem count_chart_covers_technicians_sorted (tickets : List Ticket) (users : List User)
    (f : ReportFilters) :
    (∀ u ∈ users, u.role = Role.Technician →
      (ticketsByTechnician tickets users f).countP (fun e => e.1 == u.name) = 1) ∧
    (∀ e ∈ ticketsByTechnician tickets users f, e.1 ∈ techNames users) ∧
    List.Sorted (fun a b => b ≤ a)
      ((ticketsByTechnician tickets users f).map (fun e => e.2.1)) := by
  have hkeys : keysOf (techCountsOf (filteredTickets tickets f) users) =
      keysOf (initCounts users) := by
    rw [techCountsOf, keysOf_foldl_techCountStep]
  refine ⟨?_, ?_, ?_⟩
  · intro u hu hrole
    rw [ticketsByTechnician, addColors_countP_label,
      List.Perm.countP_eq _ (List.perm_insertionSort descNat _)]
    have hcp : (techCountsOf (filteredTickets tickets f) users).countP
        (fun p => p.1 == u.name) =
        (keysOf (techCountsOf (filteredTickets tickets f) users)).count u.name := by
      rw [keysOf, List.count, List.countP_map]
      rfl
    rw [hcp, hkeys]
    refine List.count_eq_one_of_mem (initCounts_keys_nodup users) ?_
    refine (initCounts_keys_mem users u.name).mpr ?_
    exact List.mem_map.mpr ⟨u, List.mem_filter.mpr ⟨hu, by rw [hrole]; rfl⟩, rfl⟩
  · intro e he
    have h1 := addColors_mem_label 0 _ e he
    rw [keysOf] at h1
    have h2 := ((List.perm_insertionSort descNat
      (techCountsOf (filteredTickets tickets f) users)).map Prod.fst).mem_iff.mp h1
    rw [← keysOf] at h2
    rw [hkeys] at h2
    exact (initCounts_keys_mem users e.1).mp h2
  · have hs := List.sorted_insertionSort descNat (techCountsOf (filteredTickets tickets f) users)
    rw [ticketsByTechnician, addColors_map_val]
    exact List.Pairwise.map Prod.snd (fun a b h => h) hs

/-- C7 witness: with technicians `"T1"` (no tickets) and `"T2"` (one ticket),
the chart still has exactly one `"T1"` entry. -/
theorem count_chart_covers_technicians_sorted_witness :
    (ticketsByTechnician [ticketActiveT2] [userT1, userT2] fAll).countP
      (fun e => e.1 == "T1") = 1 :=
  (count_chart_covers_technicians_sorted [ticketActiveT2] [userT1, userT2] fAll).1
    userT1 (List.mem_cons_self userT1 [userT2]) rfl

/-! ## Claim C3 -/

/-- C3: the displayed average processing time is `0.0` when no completed
filtered ticket has both date strings present; and whenever every such
resolved ticket's dates parse to valid dates, it equals the arithmetic mean
of the completion-minus-entry differences in days, rounded to one decimal. -/
theorem avg_processing_time_is_rounded_mean (tickets : List Ticket) (f : ReportFilters) :
    (resolvedOf (filteredTickets tickets f) = [] →
      (stats tickets f).avgProcessingTime = some 0) ∧
    ((∀ t ∈ resolvedOf (filteredTickets tickets f), validDates t = true) →
      (stats tickets f).avgProcessingTime =
        some (round1 (meanDiffDays (resolvedOf (filteredTickets tickets f))))) := by
  constructor
  · intro h
    simp only [stats, statsOf, h, List.length_nil, lt_irrefl, if_false, Option.map_some]
    norm_num [round1]
  · intro hv
    by_cases hR : resolvedOf (filteredTickets tickets f) = []
    · rw [hR]
      simp only [stats, statsOf, hR, List.length_nil, lt_irrefl, if_false, Option.map_some]
      norm_num [round1, meanDiffDays]
    · have hlen : 0 < (resolvedOf (filteredTickets tickets f)).length :=
        List.length_pos.mpr hR
      have hfold := foldl_jsAdd_of_valid (resolvedOf (filteredTickets tickets f)) 0 hv
      simp only [stats, statsOf, hfold, if_pos hlen, zero_add, Option.map_some']
      congr 1
      rw [meanDiffDays, sum_diffDaysQ, div_right_comm]

/-- C3 witness: two resolved tickets with one- and two-day processing times
give the displayed average `1.5`. -/
theorem avg_processing_time_is_rounded_mean_witness :
    (stats [ticketOneDay, ticketTwoDays] fAll).avgProcessingTime = some (3 / 2) := by
  have h := (avg_processing_time_is_rounded_mean [ticketOneDay, ticketTwoDays] fAll).2
    (by decide)
  rw [h]
  have hR : resolvedOf (filteredTickets [ticketOneDay, ticketTwoDays] fAll) =
      [ticketOneDay, ticketTwoDays] := by decide
  have h1 : msDiff ticketOneDay = 86400000 := by decide
  have h2 : msDiff ticketTwoDays = 172800000 := by decide
  rw [hR]
  simp only [meanDiffDays, List.map_cons, List.map_nil, List.sum_cons, List.sum_nil,
    diffDaysQ, h1, h2, List.length_cons, List.length_nil]
  norm_num [round1, msPerDay]

/-! ## Skip and lookup lemmas for claim C10 -/

theorem foldl_techCountStep_skip (users : List User) (t : Ticket)
    (h : t.technician = "" ∨ t.technician = "N/A" ∨ t.technician ∉ techNames users)
    (A B : List Ticket) :
    (A ++ t :: B).foldl techCountStep (initCounts users) =
      (A ++ B).foldl techCountStep (initCounts users) := by
  rw [List.foldl_append, List.foldl_append, List.foldl_cons]
  congr 1
  apply techCountStep_id
  rcases h with h | h | h
  · exact Or.inl h
  · exact Or.inr (Or.inl h)
  · refine Or.inr (Or.inr ?_)
    have hk : keysOf (A.foldl techCountStep (initCounts users)) = keysOf (initCounts users) :=
      keysOf_foldl_techCountStep A (initCounts users)
    have : ¬ (hasKey (A.foldl techCountStep (initCounts users)) t.technician = true) := by
      rw [hasKey_iff, hk, initCounts_keys_mem]
      exact h
    simpa using this

theorem foldl_techDataStep_skip (users : List User) (t : Ticket)
    (h : t.technician ∉ techNames users) (A B : List Ticket) :
    (A ++ t :: B).foldl techDataStep (initTechData users) =
      (A ++ B).foldl techDataStep (initTechData users) := by
  rw [List.foldl_append, List.foldl_append, List.foldl_cons]
  congr 1
  apply techDataStep_id
  have hk : keysOf (A.foldl techDataStep (initTechData users)) = keysOf (initTechData users) :=
    keysOf_foldl_techDataStep A (initTechData users)
  have : ¬ (hasKey (A.foldl techDataStep (initTechData users)) t.technician = true) := by
    rw [hasKey_iff, hk, initTechData_keys_mem]
    exact h
  simpa using this

theorem getKey_map_overwrite {k : String} {v : α} :
    ∀ l : List (String × α), k ∈ keysOf l →
      getKey (l.map (fun p => if p.1 = k then (k, v) else p)) k = some v := by
  intro l
  induction l with
  | nil => intro h; simp [keysOf] at h
  | cons p rest ih =>
    intro h
    by_cases hp : p.1 = k
    · simp [getKey, hp]
    · rw [keysOf_cons, List.mem_cons] at h
      rcases h with h | h
      · exact absurd h.symm hp
      · have := ih h
        simp only [getKey, List.map_cons, if_neg hp, List.find?_cons] at this ⊢
        rw [show ((p.1 == k) = false) from by simp [hp]] at *
        exact this

theorem getKey_append_fresh {k : String} {v : α} :
    ∀ l : List (String × α), k ∉ keysOf l → getKey (l ++ [(k, v)]) k = some v := by
  intro l
  induction l with
  | nil => simp [getKey]
  | cons p rest ih =>
    intro h
    rw [keysOf_cons, List.mem_cons] at h
    push_neg at h
    have hp : (p.1 == k) = false := by
      simp only [beq_eq_false_iff_ne, ne_eq]
      exact fun hpk => h.1 hpk.symm
    simp only [List.cons_append, getKey, List.find?_cons, hp]
    exact ih h.2

theorem getKey_setKey (l : List (String × α)) (k : String) (v : α) :
    getKey (setKey l k v) k = some v := by
  unfold setKey
  by_cases h : hasKey l k = true
  · rw [if_pos h]
    exact getKey_map_overwrite l ((hasKey_iff l k).mp h)
  · rw [if_neg h]
    refine getKey_append_fresh l ?_
    intro hmem
    exact h ((hasKey_iff l k).mpr hmem)

/-! ## Claim C10 -/

/-- C10 counterexample: a completed ticket with an empty technician field
does contribute a bar to the average-processing-time chart when a Technician
user is named `""` — `avgProcessingTimePerTechnician` has no truthiness check
on the technician, unlike the two count charts — so a ticket with an empty
technician is not always excluded from all three per-technician results. -/
theorem empty_technician_contributes_to_avg_chart :
    ticketEmptyTech.technician = "" ∧
    avgProcessingTimePerTechnician [ticketEmptyTech] [userEmptyName] fAll =
      [("", some 1)] ∧
    avgProcessingTimePerTechnician [] [userEmptyName] fAll = [("", some 0)] := by
  have hinit : initTechData [userEmptyName] = [("", (some 0, 0))] := rfl
  have h0 : filteredTickets [ticketEmptyTech] fAll = [ticketEmptyTech] := by decide
  have h1 : resolvedForTech [ticketEmptyTech] = [ticketEmptyTech] := by decide
  have hpe : parseGermanDate ticketEmptyTech.entryDate = some (some 1767225600000) := by
    decide
  have hpc : parseGermanDate ticketEmptyTech.completionDate = some (some 1767312000000) := by
    decide
  have hstep : techDataStep [("", (some 0, 0))] ticketEmptyTech = [("", (some 1, 1))] := by
    unfold techDataStep
    rw [hpe, hpc]
    simp only [jsSub, Option.map_some', modifyKey, List.map_cons, List.map_nil, jsAddQ,
      if_pos (show hasKey [("", ((some 0 : Option ℚ), (0 : Nat)))] ticketEmptyTech.technician
        = true from by decide)]
    norm_num [msPerDay]
    rfl
  have h2 : techDataOf [ticketEmptyTech] [userEmptyName] fAll = [("", (some 1, 1))] := by
    rw [techDataOf, h0, h1, List.foldl_cons, List.foldl_nil, hinit, hstep]
  have h3 : techDataOf [] [userEmptyName] fAll = [("", (some 0, 0))] := by
    rw [techDataOf]
    exact hinit
  refine ⟨rfl, ?_, ?_⟩
  · rw [avgProcessingTimePerTechnician, h2]
    simp [List.insertionSort, Option.map]
  · rw [avgProcessingTimePerTechnician, h3]
    simp [List.insertionSort, Option.map]

/-- C10 (amended): a ticket whose technician is `""`, `"N/A"` or unknown is
skipped by the count chart and by the workload numerators; a ticket whose
technician is `"N/A"` or unknown is also skipped by the avg-processing-time
data (a ticket with an *empty* technician is only skipped there when no
Technician user is named `""`, see the counterexample); and any filtered
ticket, whatever its technician, is counted by the total/completed/overdue
stats and bumps its area's count. -/
theorem unassigned_ticket_in_no_technician_bar (users : List User) (t : Ticket)
    (tickets1 tickets2 : List Ticket) (f : ReportFilters) (fl : List Ticket) :
    (t.technician = "" ∨ t.technician = "N/A" ∨ t.technician ∉ techNames users →
      techCountsOf (filteredTickets (tickets1 ++ t :: tickets2) f) users =
        techCountsOf (filteredTickets (tickets1 ++ tickets2) f) users ∧
      workloadCounts (tickets1 ++ t :: tickets2) users f =
        workloadCounts (tickets1 ++ tickets2) users f) ∧
    (t.technician = "N/A" ∨ t.technician ∉ techNames users →
      techDataOf (tickets1 ++ t :: tickets2) users f =
        techDataOf (tickets1 ++ tickets2) users f) ∧
    ((statsOf (fl ++ [t])).total = (statsOf fl).total + 1) ∧
    ((statsOf (fl ++ [t])).abgeschlossene =
      (statsOf fl).abgeschlossene + (if t.status == Status.Abgeschlossen then 1 else 0)) ∧
    ((statsOf (fl ++ [t])).ueberfaellige =
      (statsOf fl).ueberfaellige + (if t.status == Status.Ueberfaellig then 1 else 0)) ∧
    (getKey (areaCountsOf (fl ++ [t])) t.area =
      some ((getKey (areaCountsOf fl) t.area).getD 0 + 1)) := by
  have hfsplit : filteredTickets (tickets1 ++ t :: tickets2) f =
      filteredTickets tickets1 f ++
        (if keepTicket f t then t :: filteredTickets tickets2 f
          else filteredTickets tickets2 f) := by
    rw [filteredTickets, List.filter_append, List.filter_cons]
    rfl
  have hfjoin : filteredTickets (tickets1 ++ tickets2) f =
      filteredTickets tickets1 f ++ filteredTickets tickets2 f := by
    rw [filteredTickets, List.filter_append]
    rfl
  refine ⟨?_, ?_, ?_, ?_, ?_, ?_⟩
  · intro hbad
    constructor
    · rw [techCountsOf, techCountsOf, hfsplit, hfjoin]
      by_cases hk : keepTicket f t
      · rw [if_pos hk]
        exact foldl_techCountStep_skip users t hbad _ _
      · rw [if_neg hk]
    · rw [workloadCounts, workloadCounts, hfsplit, hfjoin, activeOf, activeOf,
        List.filter_append, List.filter_append]
      by_cases hk : keepTicket f t
      · rw [if_pos hk, List.filter_cons]
        by_cases ha : (!(t.status == Status.Abgeschlossen)) = true
        · rw [if_pos ha]
          exact foldl_techCountStep_skip users t hbad _ _
        · rw [if_neg ha]
      · rw [if_neg hk]
  · intro hbad
    rw [techDataOf, techDataOf, hfsplit, hfjoin, resolvedForTech, resolvedForTech,
      List.filter_append, List.filter_append]
    by_cases hk : keepTicket f t
    · rw [if_pos hk, List.filter_cons]
      by_cases hr : (t.status == Status.Abgeschlossen && truthyS t.completionDate &&
          truthyS t.entryDate && t.technician ≠ "N/A") = true
      · rw [if_pos hr]
        rcases hbad with hbad | hbad
        · exfalso
          simp only [Bool.and_eq_true, decide_eq_true_eq] at hr
          exact hr.2 hbad
        · exact foldl_techDataStep_skip users t hbad _ _
      · rw [if_neg hr]
    · rw [if_neg hk]
  · simp [statsOf]
  · simp only [statsOf, List.filter_append, List.length_append, List.filter_cons,
      List.filter_nil]
    by_cases hs : (t.status == Status.Abgeschlossen) = true <;> simp [hs]
  · simp only [statsOf, List.filter_append, List.length_append, List.filter_cons,
      List.filter_nil]
    by_cases hs : (t.status == Status.Ueberfaellig) = true <;> simp [hs]
  · rw [areaCountsOf, areaCountsOf, List.foldl_append, List.foldl_cons, List.foldl_nil,
      areaStep]
    exact getKey_setKey _ t.area _

/-- C10 witness: an active `"N/A"` ticket leaves the count-chart and workload
counts unchanged, yet is counted by the total stat. -/
theorem unassigned_ticket_in_no_technician_bar_witness :
    techCountsOf (filteredTickets ([] ++ ticketNA :: [ticketActiveT1]) fAll) [userT1] =
      techCountsOf (filteredTickets ([] ++ [ticketActiveT1]) fAll) [userT1] ∧
    (statsOf ([ticketActiveT1] ++ [ticketNA])).total = (statsOf [ticketActiveT1]).total + 1 :=
  ⟨((unassigned_ticket_in_no_technician_bar [userT1] ticketNA [] [ticketActiveT1] fAll
      [ticketActiveT1]).1 (by decide)).1,
    (unassigned_ticket_in_no_technician_bar [userT1] ticketNA [] [ticketActiveT1] fAll
      [ticketActiveT1]).2.2.1⟩

end DRK
